import Mathlib

/-!
Shallow embedding of the planetaska/quote-server core: the tag normalizer,
the quote store (db.rs), the token service (authjwt.rs) and the API layer
(api.rs), together with theorems settling the specification claims.

Timestamps (chrono DateTime in the source) are modelled as natural numbers
counting seconds; row identifiers (i64 in the source) are modelled as Int.
-/

namespace QuoteServer

/-- Whitespace character class used by trimming: the ASCII whitespace
characters recognised by Rust str::trim on the inputs this program handles. -/
def isWs (c : Char) : Bool :=
  c = ' ' || c = '\t' || c = '\n' || c = '\r' || c = '\x0b' || c = '\x0c'

/-- Model of Rust str::trim on a character list: remove leading and trailing
whitespace characters. -/
def trimChars (l : List Char) : List Char :=
  ((l.dropWhile isWs).reverse.dropWhile isWs).reverse

/-- Model of Rust str::trim / String trim used throughout db.rs, api.rs and
authjwt.rs. -/
def trim (s : String) : String :=
  (trimChars s.data).asString

/-- Dropping a prefix by a predicate twice is the same as dropping it once. -/
theorem dropWhile_idem (p : Char → Bool) (l : List Char) :
    (l.dropWhile p).dropWhile p = l.dropWhile p := by
  induction l with
  | nil => rfl
  | cons a l ih =>
    by_cases h : p a
    · simp [List.dropWhile_cons, h, ih]
    · simp [List.dropWhile_cons, h]

/-- The head surviving a dropWhile does not satisfy the predicate. -/
theorem dropWhile_head_false (p : Char → Bool) :
    ∀ (l : List Char) (a : Char) (t : List Char),
      l.dropWhile p = a :: t → p a = false := by
  intro l
  induction l with
  | nil => intro a t h; simp [List.dropWhile] at h
  | cons b l ih =>
    intro a t h
    by_cases hb : p b
    · rw [List.dropWhile_cons_of_pos hb] at h
      exact ih a t h
    · rw [List.dropWhile_cons_of_neg hb] at h
      cases h
      simpa using hb

/-- trimChars output is a prefix of the left-trimmed list. -/
theorem trimChars_prefix (l : List Char) :
    trimChars l <+: l.dropWhile isWs := by
  unfold trimChars
  have h : (l.dropWhile isWs).reverse.dropWhile isWs <:+ (l.dropWhile isWs).reverse :=
    List.dropWhile_suffix isWs
  have h2 := List.reverse_prefix.mpr h
  simpa using h2

/-- Trimming is idempotent on character lists. -/
theorem trimChars_idem (l : List Char) : trimChars (trimChars l) = trimChars l := by
  have hleft : (trimChars l).dropWhile isWs = trimChars l := by
    cases ht : trimChars l with
    | nil => rfl
    | cons a t =>
      obtain ⟨u, hu⟩ := trimChars_prefix l
      rw [ht] at hu
      have hm : l.dropWhile isWs = a :: (t ++ u) := by
        rw [← hu]; rfl
      have hme : (l.dropWhile isWs).dropWhile isWs = l.dropWhile isWs :=
        dropWhile_idem isWs l
      rw [hm] at hme
      have ha : isWs a = false := by
        by_contra hcon
        have ha2 : isWs a = true := by
          cases h3 : isWs a
          · exact absurd h3 hcon
          · rfl
        rw [List.dropWhile_cons_of_pos ha2] at hme
        have hlen : ((t ++ u).dropWhile isWs).length = (t ++ u).length + 1 := by
          rw [hme]; rfl
        have hle := (List.dropWhile_suffix (l := t ++ u) isWs).sublist.length_le
        omega
      rw [List.dropWhile_cons_of_neg (by simp [ha])]
  have hrev : (trimChars l).reverse = (l.dropWhile isWs).reverse.dropWhile isWs := by
    unfold trimChars; rw [List.reverse_reverse]
  calc trimChars (trimChars l)
      = (((trimChars l).dropWhile isWs).reverse.dropWhile isWs).reverse := rfl
    _ = ((trimChars l).reverse.dropWhile isWs).reverse := by rw [hleft]
    _ = (((l.dropWhile isWs).reverse.dropWhile isWs).dropWhile isWs).reverse := by rw [hrev]
    _ = ((l.dropWhile isWs).reverse.dropWhile isWs).reverse := by rw [dropWhile_idem]
    _ = trimChars l := rfl

/-- Trimming is idempotent on strings. -/
theorem trim_idem (s : String) : trim (trim s) = trim s := by
  unfold trim
  have h : (List.asString (trimChars s.data)).data = trimChars s.data := rfl
  rw [h, trimChars_idem]

/-- Lexicographic comparison of character lists: the order Rust uses to sort
String values (byte-wise comparison of UTF-8, which on valid UTF-8 agrees
with code-point lexicographic order). -/
def charListLe : List Char → List Char → Bool
  | [], _ => true
  | _ :: _, [] => false
  | a :: as, b :: bs => if a < b then true else if b < a then false else charListLe as bs

/-- Model of the Rust Ord instance on String, as a boolean comparator. -/
def strLe (a b : String) : Bool :=
  charListLe a.data b.data

/-- Ordering relation on strings induced by the comparator; the relation the
tag_names.sort() call in db.rs sorts by. -/
def strLeRel (a b : String) : Prop :=
  strLe a b = true

instance : DecidableRel strLeRel :=
  fun a b => inferInstanceAs (Decidable (strLe a b = true))

/-- Head characterization of the comparator on two nonempty lists. -/
theorem charListLe_cons_iff (a b : Char) (as bs : List Char) :
    charListLe (a :: as) (b :: bs) = true
      ↔ (a < b ∨ (a = b ∧ charListLe as bs = true)) := by
  simp only [charListLe]
  split_ifs with h1 h2
  · simp [h1]
  · constructor
    · intro h; simp at h
    · rintro (h | ⟨rfl, _⟩)
      · exact absurd h h1
      · exact absurd h2 (lt_irrefl _)
  · have heq : a = b := le_antisymm (not_lt.mp h2) (not_lt.mp h1)
    subst heq
    simp [lt_irrefl]

/-- The comparator is total. -/
theorem charListLe_total (l1 l2 : List Char) :
    charListLe l1 l2 = true ∨ charListLe l2 l1 = true := by
  induction l1 generalizing l2 with
  | nil => left; rfl
  | cons a as ih =>
    cases l2 with
    | nil => right; rfl
    | cons b bs =>
      rcases lt_trichotomy a b with h | h | h
      · left; exact (charListLe_cons_iff a b as bs).mpr (Or.inl h)
      · subst h
        rcases ih bs with hh | hh
        · left; exact (charListLe_cons_iff a a as bs).mpr (Or.inr ⟨rfl, hh⟩)
        · right; exact (charListLe_cons_iff a a bs as).mpr (Or.inr ⟨rfl, hh⟩)
      · right; exact (charListLe_cons_iff b a bs as).mpr (Or.inl h)

/-- The comparator is transitive. -/
theorem charListLe_trans (l1 l2 l3 : List Char)
    (h12 : charListLe l1 l2 = true) (h23 : charListLe l2 l3 = true) :
    charListLe l1 l3 = true := by
  induction l1 generalizing l2 l3 with
  | nil => rfl
  | cons a as ih =>
    cases l2 with
    | nil => simp [charListLe] at h12
    | cons b bs =>
      cases l3 with
      | nil => simp [charListLe] at h23
      | cons c cs =>
        rcases (charListLe_cons_iff a b as bs).mp h12 with hab | ⟨heqab, hab⟩
        · rcases (charListLe_cons_iff b c bs cs).mp h23 with hbc | ⟨heqbc, _⟩
          · exact (charListLe_cons_iff a c as cs).mpr (Or.inl (lt_trans hab hbc))
          · exact (charListLe_cons_iff a c as cs).mpr (Or.inl (heqbc ▸ hab))
        · subst heqab
          rcases (charListLe_cons_iff a c bs cs).mp h23 with hbc | ⟨heqbc, hbc⟩
          · exact (charListLe_cons_iff a c as cs).mpr (Or.inl hbc)
          · exact (charListLe_cons_iff a c as cs).mpr
              (Or.inr ⟨heqbc, ih bs cs hab hbc⟩)

/-- The comparator is antisymmetric. -/
theorem charListLe_antisymm (l1 l2 : List Char)
    (h12 : charListLe l1 l2 = true) (h21 : charListLe l2 l1 = true) :
    l1 = l2 := by
  induction l1 generalizing l2 with
  | nil =>
    cases l2 with
    | nil => rfl
    | cons b bs => simp [charListLe] at h21
  | cons a as ih =>
    cases l2 with
    | nil => simp [charListLe] at h12
    | cons b bs =>
      rcases (charListLe_cons_iff a b as bs).mp h12 with hab | ⟨heqab, hab⟩
      · rcases (charListLe_cons_iff b a bs as).mp h21 with hba | ⟨heqba, _⟩
        · exact absurd hba (asymm hab)
        · exact absurd hab (heqba ▸ lt_irrefl a)
      · subst heqab
        rcases (charListLe_cons_iff a a bs as).mp h21 with hba | ⟨_, hba⟩
        · exact absurd hba (lt_irrefl _)
        · rw [ih bs hab hba]

/-- Two strings with equal character data are equal. -/
theorem str_eq_of_data_eq {a b : String} (h : a.data = b.data) : a = b := by
  cases a; cases b; exact congrArg String.mk h

instance : IsTotal String strLeRel :=
  ⟨fun a b => charListLe_total a.data b.data⟩

instance : IsTrans String strLeRel :=
  ⟨fun a b c hab hbc => charListLe_trans a.data b.data c.data hab hbc⟩

instance : IsAntisymm String strLeRel :=
  ⟨fun a b hab hba => str_eq_of_data_eq (charListLe_antisymm a.data b.data hab hba)⟩

/-- Unique, trimmed, non-empty tag names in first-occurrence order. The Rust
code in create_quote and update_quote collects these into a HashSet whose
iteration order is unspecified; the model fixes first-occurrence order as the
order in which tag rows are inserted. -/
def uniqueTagList (tags : List String) : List String :=
  ((tags.map trim).filter (fun s => s ≠ "")).dedup

/-- Tag normalization as performed by create_quote and update_quote in db.rs:
trim each raw tag, drop empty results, collapse duplicates (the HashSet),
then sort the collected names ascending (the tag_names.sort() call). The
HashSet iteration order is irrelevant here because the result is sorted. -/
def normalizeTags (tags : List String) : List String :=
  (uniqueTagList tags).insertionSort strLeRel

/-- Members of the normalized list are exactly the members of the unique
list. -/
theorem mem_normalizeTags {s : String} {tags : List String} :
    s ∈ normalizeTags tags ↔ s ∈ uniqueTagList tags := by
  unfold normalizeTags
  exact List.mem_insertionSort _

/-- Every member of the unique tag list is nonempty and trim-fixed. -/
theorem uniqueTagList_mem_spec {s : String} {tags : List String}
    (h : s ∈ uniqueTagList tags) : s ≠ "" ∧ trim s = s := by
  unfold uniqueTagList at h
  have h1 := List.mem_dedup.mp h
  have h2 := List.mem_filter.mp h1
  obtain ⟨hmem, hne⟩ := h2
  obtain ⟨t, _, ht⟩ := List.mem_map.mp hmem
  constructor
  · simpa using hne
  · rw [← ht, trim_idem]

/-- The normalized tag list is sorted ascending. -/
theorem normalizeTags_sorted (tags : List String) :
    (normalizeTags tags).Sorted strLeRel :=
  List.sorted_insertionSort _ _

/-- The normalized tag list has no duplicates. -/
theorem normalizeTags_nodup (tags : List String) : (normalizeTags tags).Nodup :=
  ((List.perm_insertionSort _ _).nodup_iff).mpr (List.nodup_dedup _)

/-- Normalization is idempotent. -/
theorem normalizeTags_idem (tags : List String) :
    normalizeTags (normalizeTags tags) = normalizeTags tags := by
  have hmap : (normalizeTags tags).map trim = normalizeTags tags := by
    calc (normalizeTags tags).map trim
        = (normalizeTags tags).map id :=
          List.map_congr_left
            (fun a ha => (uniqueTagList_mem_spec (mem_normalizeTags.mp ha)).2)
      _ = normalizeTags tags := List.map_id _
  have hfil : (normalizeTags tags).filter (fun s => s ≠ "") = normalizeTags tags :=
    List.filter_eq_self.mpr (fun a ha => by
      simpa using (uniqueTagList_mem_spec (mem_normalizeTags.mp ha)).1)
  have hded : (normalizeTags tags).dedup = normalizeTags tags :=
    List.dedup_eq_self.mpr (normalizeTags_nodup tags)
  show (uniqueTagList (normalizeTags tags)).insertionSort strLeRel
      = normalizeTags tags
  unfold uniqueTagList
  rw [hmap, hfil, hded]
  exact (normalizeTags_sorted tags).insertionSort_eq

/-- C4: tag normalization as performed by Create and Update yields a list
with no duplicates, no empty or whitespace-only entries, every entry trimmed,
in ascending lexical order; it never fails (empty input gives empty output)
and is idempotent. -/
theorem C4_tag_normalization (tags : List String) :
    (normalizeTags tags).Nodup
    ∧ (∀ s ∈ normalizeTags tags, s ≠ "" ∧ trim s = s)
    ∧ (normalizeTags tags).Sorted strLeRel
    ∧ normalizeTags ([] : List String) = []
    ∧ normalizeTags (normalizeTags tags) = normalizeTags tags :=
  ⟨normalizeTags_nodup tags,
   fun _ hs => uniqueTagList_mem_spec (mem_normalizeTags.mp hs),
   normalizeTags_sorted tags,
   rfl,
   normalizeTags_idem tags⟩

/-- Witness for C4 at the specification test vector. -/
theorem C4_tag_normalization_witness :
    ("a" ≠ "" ∧ trim "a" = "a")
    ∧ normalizeTags (normalizeTags ["b", "a", "a", " "])
        = normalizeTags ["b", "a", "a", " "]
    ∧ normalizeTags ["b", "a", "a", " "] = ["a", "b"] :=
  ⟨(C4_tag_normalization ["b", "a", "a", " "]).2.1 "a" (by decide),
   (C4_tag_normalization ["b", "a", "a", " "]).2.2.2.2,
   by decide⟩

/-- JWT claim set from authjwt.rs: issuer, subject and expiration time in
seconds (the u64 exp field). -/
structure Claims where
  iss : String
  sub : String
  exp : Nat
deriving DecidableEq

/-- Symmetric signing secret (the trimmed content of the secret file that
JwtKeys.new wraps into encoding and decoding keys). -/
structure Secret where
  bytes : String
deriving DecidableEq

/-- Abstract model of an encoded JWT as handled by the jsonwebtoken library:
either a string that does not parse as a JWT at all, or a parsed token whose
first component is the payload carried and whose signature records the key
and payload the HMAC was computed over. HMAC signing is abstracted by its
contract: a signature verifies under a key and payload exactly when it was
produced by signing that payload with that key. -/
inductive Token where
  | garbage : String → Token
  | signed : Claims → Secret → Claims → Token
deriving DecidableEq

/-- Model of jsonwebtoken encode with a Header for HS512: sign the claim set
with the key; the payload and the signed-over payload coincide. -/
def jwtEncode (key : Secret) (c : Claims) : Token :=
  Token.signed c key c

/-- Decode failures of the jsonwebtoken library relevant to validate_token;
authjwt.rs maps every one of them to AuthError.InvalidToken. -/
inductive JwtError where
  | invalidStructure
  | invalidSignature
  | expiredSignature
deriving DecidableEq

/-- Default leeway in seconds of the jsonwebtoken Validation built by
Validation::new, which validate_token uses. -/
def jwtLeeway : Nat := 60

/-- Model of jsonwebtoken decode run with Validation::new(Algorithm::HS512),
an external library dependency of authjwt.rs, per its documented contract:
reject unparsable input, verify the signature against the key, then (since
validate_exp is on by default with a 60 second leeway) reject a payload whose
exp lies more than the leeway before now. -/
def jwtDecode (key : Secret) (now : Nat) : Token → Except JwtError Claims
  | Token.garbage _ => .error .invalidStructure
  | Token.signed payload k p =>
    if k = key ∧ p = payload then
      if payload.exp < now - jwtLeeway then .error .expiredSignature
      else .ok payload
    else .error .invalidSignature

/-- Authentication error taxonomy from authjwt.rs. -/
inductive AuthError where
  | TokenCreation
  | InvalidToken
  | WrongCredentials
  | MissingCredentials
  | TokenExpired
deriving DecidableEq

/-- Model of the IntoResponse implementation for AuthError in authjwt.rs: the
HTTP status code and error message each variant is surfaced with. -/
def authErrorResponse : AuthError → Nat × String
  | .TokenCreation => (500, "Token creation failed")
  | .InvalidToken => (400, "Invalid token")
  | .WrongCredentials => (401, "Wrong credentials")
  | .MissingCredentials => (400, "Missing credentials")
  | .TokenExpired => (401, "Token expired")

/-- Model of authjwt.rs validate_token: decode with Validation::new(HS512),
map any decode failure to InvalidToken, then reject a claim set whose exp is
strictly before now with TokenExpired. -/
def validate_token (key : Secret) (now : Nat) (token : Token) :
    Except AuthError Claims :=
  match jwtDecode key now token with
  | .ok c => if c.exp < now then .error .TokenExpired else .ok c
  | .error _ => .error .InvalidToken

/-- User registration request body from authjwt.rs. -/
structure Registration where
  full_name : String
  email : String
  password : String
deriving DecidableEq

/-- Authentication response body from authjwt.rs; AuthBody::new fixes
token_type to the literal Bearer scheme identifier. -/
structure AuthBody where
  access_token : Token
  token_type : String
deriving DecidableEq

/-- Model of authjwt.rs make_jwt_token: reject a password different from the
registration key with WrongCredentials; otherwise build the claim set with
the fixed issuer, the subject derived from name and email, and expiration at
now plus 24 hours (TimeDelta::days(1), in seconds), and sign it. The encode
call of the library cannot fail on this data, so TokenCreation is not
produced by the model. -/
def make_jwt_token (key : Secret) (reg_key : String) (now : Nat)
    (registration : Registration) : Except AuthError AuthBody :=
  if registration.password ≠ reg_key then .error .WrongCredentials
  else
    .ok { access_token := jwtEncode key
            { iss := "quote-server.localhost"
              sub := registration.full_name ++ " <" ++ registration.email ++ ">"
              exp := now + 86400 }
          token_type := "Bearer" }

/-- Shapes of the Authorization header as consumed by the Claims extractor in
authjwt.rs: present but not convertible to str (to_str fails), present
without the Bearer prefix, or carrying a Bearer token (the serialization of
the token is abstracted). -/
inductive AuthHeader where
  | notAscii
  | noBearer : String → AuthHeader
  | bearer : Token → AuthHeader

/-- Model of the FromRequestParts implementation for Claims in authjwt.rs: a
missing header, or one whose value is not valid text, gives
MissingCredentials; a value without the Bearer prefix gives InvalidToken; a
missing JwtKeys extension gives InvalidToken; otherwise the bearer token is
validated. -/
def from_request_parts (header : Option AuthHeader) (keys : Option Secret)
    (now : Nat) : Except AuthError Claims :=
  match header with
  | none => .error .MissingCredentials
  | some .notAscii => .error .MissingCredentials
  | some (.noBearer _) => .error .InvalidToken
  | some (.bearer t) =>
    match keys with
    | none => .error .InvalidToken
    | some key => validate_token key now t

/-- Row of the quotes table. -/
structure QuoteRow where
  id : Int
  quote : String
  source : String
  created_at : Nat
  updated_at : Nat
deriving DecidableEq

/-- Row of the tags table. -/
structure TagRow where
  id : Int
  quote_id : Int
  name : String
  created_at : Nat
  updated_at : Nat
deriving DecidableEq

/-- QuoteWithTags projection from db.rs. -/
structure QuoteWithTags where
  id : Int
  quote : String
  source : String
  created_at : Nat
  updated_at : Nat
  tags : List String
deriving DecidableEq

/-- Create request body from db.rs. -/
structure CreateQuoteRequest where
  quote : String
  source : String
  tags : Option (List String)
deriving DecidableEq

/-- Update request body from db.rs. -/
structure UpdateQuoteRequest where
  quote : String
  source : String
  tags : Option (List String)
deriving DecidableEq

/-- SQLite database state: the two tables in row order plus the rowid
counters feeding last_insert_rowid. -/
structure Db where
  quotes : List QuoteRow
  tags : List TagRow
  nextQuoteId : Int
  nextTagId : Int
deriving DecidableEq

/-- Statement INSERT INTO quotes (quote, source, created_at, updated_at),
returning last_insert_rowid. -/
def insertQuoteRow (db : Db) (q s : String) (now : Nat) : Db × Int :=
  let qid := db.nextQuoteId
  (⟨db.quotes ++ [⟨qid, q, s, now, now⟩], db.tags, qid + 1, db.nextTagId⟩, qid)

/-- Statement INSERT INTO tags (quote_id, name, created_at, updated_at). -/
def insertTagRow (db : Db) (qid : Int) (name : String) (now : Nat) : Db :=
  ⟨db.quotes, db.tags ++ [⟨db.nextTagId, qid, name, now, now⟩],
   db.nextQuoteId, db.nextTagId + 1⟩

/-- Statement SELECT ... FROM quotes WHERE id = ? with fetch_optional. -/
def findQuoteRow (db : Db) (qid : Int) : Option QuoteRow :=
  db.quotes.find? (fun r => r.id = qid)

/-- Statement UPDATE quotes SET quote = ?, source = ?, updated_at = ? WHERE
id = ?. -/
def updateQuoteRow (db : Db) (qid : Int) (q s : String) (now : Nat) : Db :=
  ⟨db.quotes.map (fun r =>
      if r.id = qid then { r with quote := q, source := s, updated_at := now } else r),
   db.tags, db.nextQuoteId, db.nextTagId⟩

/-- Statement DELETE FROM tags WHERE quote_id = ?. -/
def deleteTagRows (db : Db) (qid : Int) : Db :=
  ⟨db.quotes, db.tags.filter (fun r => ¬ r.quote_id = qid),
   db.nextQuoteId, db.nextTagId⟩

/-- Statement SELECT ... FROM tags WHERE quote_id = ? with fetch_all: the
matching rows in stored (insertion) order; the query has no ORDER BY. -/
def tagRowsFor (db : Db) (qid : Int) : List TagRow :=
  db.tags.filter (fun r => r.quote_id = qid)

/-- Model of db.rs create_quote: insert the quote row, insert one tag row per
unique trimmed non-empty tag (the HashSet iteration order is unspecified in
Rust and modelled as first-occurrence order), and return the projection with
the collected tag names sorted. -/
def create_quote (db : Db) (now : Nat) (request : CreateQuoteRequest) :
    Db × QuoteWithTags :=
  let step := insertQuoteRow db request.quote request.source now
  match request.tags with
  | none => (step.1, ⟨step.2, request.quote, request.source, now, now, []⟩)
  | some tags =>
    let unique := uniqueTagList tags
    let db2 := unique.foldl (fun d t => insertTagRow d step.2 t now) step.1
    (db2, ⟨step.2, request.quote, request.source, now, now,
           unique.insertionSort strLeRel⟩)

/-- Sequence of SQL statements update_quote issues after its existence check,
in source order: the quote row update, the tag delete, then one insert per
unique tag. db.rs brackets them in no transaction; each executes on the pool
independently. -/
def updateStmtList (qid : Int) (request : UpdateQuoteRequest) (now : Nat) :
    List (Db → Db) :=
  (fun db => updateQuoteRow db qid request.quote request.source now)
  :: (fun db => deleteTagRows db qid)
  :: (match request.tags with
      | none => []
      | some tags => (uniqueTagList tags).map (fun t => fun db => insertTagRow db qid t now))

/-- Run an initial segment of a statement sequence: the store state that an
interrupted execution persists, or that a concurrent reader observes between
two statements. -/
def runStmts (db : Db) (stmts : List (Db → Db)) : Db :=
  stmts.foldl (fun d f => f d) db

/-- Model of db.rs update_quote: check existence (None when the id is absent,
with no state change), remember the original created_at, then run the update,
delete and insert statements and return the projection with created_at
preserved, updated_at set to now, and the collected tag names sorted. -/
def update_quote (db : Db) (now : Nat) (quote_id : Int)
    (request : UpdateQuoteRequest) : Db × Option QuoteWithTags :=
  match findQuoteRow db quote_id with
  | none => (db, none)
  | some existing =>
    (runStmts db (updateStmtList quote_id request now),
     some ⟨quote_id, request.quote, request.source, existing.created_at, now,
           match request.tags with
           | none => []
           | some tags => normalizeTags tags⟩)

/-- Modelled from the spec: the statement DELETE FROM quotes WHERE id = ?
together with the cascade the migration schema declares (tags.quote_id →
quotes.id CASCADE; the migrations directory is not part of src/) — deleting a
quote row removes every tag row referencing it. -/
def deleteQuoteRowCascade (db : Db) (qid : Int) : Db :=
  ⟨db.quotes.filter (fun r => ¬ r.id = qid),
   db.tags.filter (fun r => ¬ r.quote_id = qid),
   db.nextQuoteId, db.nextTagId⟩

/-- Model of db.rs delete_quote: check existence (false when absent, no state
change); otherwise delete the quote row — the tag rows go with it through the
schema's cascade — and report whether a row was affected. -/
def delete_quote (db : Db) (quote_id : Int) : Db × Bool :=
  match findQuoteRow db quote_id with
  | none => (db, false)
  | some _ =>
    let affected := (db.quotes.filter (fun r => r.id = quote_id)).length
    (deleteQuoteRowCascade db quote_id, decide (0 < affected))

/-- Model of db.rs get_quote_by_id: fetch the quote row, fetch its tag rows
in stored order, and build the projection from the tag names as fetched — the
function applies no sort to them. -/
def get_quote_by_id (db : Db) (quote_id : Int) : Option QuoteWithTags :=
  match findQuoteRow db quote_id with
  | none => none
  | some q =>
    some ⟨q.id, q.quote, q.source, q.created_at, q.updated_at,
          (tagRowsFor db q.id).map (fun t => t.name)⟩

/-- Storage-layer failure (sqlx Error) as the API handlers see it; the
payload stands for the internal error detail. -/
structure DbError where
  detail : String
deriving DecidableEq

/-- Response of a JSON API handler: success with a status code and body, or
failure with a status code and message (the StatusCode-String rejections of
api.rs). -/
inductive ApiResult (α : Type) where
  | success : Nat → α → ApiResult α
  | failure : Nat → String → ApiResult α
deriving DecidableEq

/-- Outcome of a handler that may panic: a response, or an unhandled panic
escaping the handler (the expect calls in api.rs). -/
inductive Outcome (α : Type) where
  | response : α → Outcome α
  | panicked : String → Outcome α
deriving DecidableEq

/-- Model of api.rs get_all_quotes given the result of the search_quotes
store call: the handler unwraps it with expect, so a storage failure becomes
an unhandled panic, not a response. -/
def api_get_all_quotes (res : Except DbError (List QuoteWithTags)) :
    Outcome (ApiResult (List QuoteWithTags)) :=
  match res with
  | .ok quotes => .response (.success 200 quotes)
  | .error _ => .panicked "Failed to get quotes"

/-- Model of api.rs get_random_quote given the result of the store call: the
handler unwraps it with expect, so a storage failure becomes an unhandled
panic, not a response. -/
def api_get_random_quote (res : Except DbError (Option QuoteWithTags)) :
    Outcome (ApiResult (Option QuoteWithTags)) :=
  match res with
  | .ok q => .response (.success 200 q)
  | .error _ => .panicked "Failed to get random quote"

/-- Model of api.rs get_quote_by_id given the result of the store call: 200
with the projection, 404 when absent, opaque 500 on a storage failure. -/
def api_get_quote_by_id (id : Int) (res : Except DbError (Option QuoteWithTags)) :
    ApiResult QuoteWithTags :=
  match res with
  | .ok (some q) => .success 200 q
  | .ok none => .failure 404 ("Quote with ID " ++ toString id ++ " not found")
  | .error _ => .failure 500 "Failed to retrieve quote"

/-- Model of api.rs create_quote. The Claims extractor runs before the
handler body (axum evaluates extractor arguments in order), so an
authentication failure rejects the request before any store access; then the
empty-text and empty-source validations run; only then is the store touched.
The fault parameter injects a storage-layer failure of the store call (none
when storage is healthy). -/
def api_create_quote (header : Option AuthHeader) (keys : Option Secret)
    (now : Nat) (db : Db) (fault : Option DbError)
    (request : CreateQuoteRequest) : Db × ApiResult QuoteWithTags :=
  match from_request_parts header keys now with
  | .error e => (db, .failure (authErrorResponse e).1 (authErrorResponse e).2)
  | .ok _ =>
    if trim request.quote = "" then (db, .failure 400 "Quote text cannot be empty")
    else if trim request.source = "" then (db, .failure 400 "Quote source cannot be empty")
    else
      match fault with
      | some _ => (db, .failure 500 "Failed to create quote")
      | none =>
        let step := create_quote db now request
        (step.1, .success 201 step.2)

/-- Model of api.rs update_quote, structured like api_create_quote. -/
def api_update_quote (header : Option AuthHeader) (keys : Option Secret)
    (now : Nat) (db : Db) (fault : Option DbError) (id : Int)
    (request : UpdateQuoteRequest) : Db × ApiResult QuoteWithTags :=
  match from_request_parts header keys now with
  | .error e => (db, .failure (authErrorResponse e).1 (authErrorResponse e).2)
  | .ok _ =>
    if trim request.quote = "" then (db, .failure 400 "Quote text cannot be empty")
    else if trim request.source = "" then (db, .failure 400 "Quote source cannot be empty")
    else
      match fault with
      | some _ => (db, .failure 500 "Failed to update quote")
      | none =>
        let step := update_quote db now id request
        match step.2 with
        | some q => (step.1, .success 200 q)
        | none => (step.1, .failure 404 ("Quote with ID " ++ toString id ++ " not found"))

/-- Model of api.rs delete_quote: auth first, then the store delete, mapped
to 204, 404 or an opaque 500. -/
def api_delete_quote (header : Option AuthHeader) (keys : Option Secret)
    (now : Nat) (db : Db) (fault : Option DbError) (id : Int) :
    Db × ApiResult Unit :=
  match from_request_parts header keys now with
  | .error e => (db, .failure (authErrorResponse e).1 (authErrorResponse e).2)
  | .ok _ =>
    match fault with
    | some _ => (db, .failure 500 "Failed to delete quote")
    | none =>
      let step := delete_quote db id
      match step.2 with
      | true => (step.1, .success 204 ())
      | false => (step.1, .failure 404 ("Quote with ID " ++ toString id ++ " not found"))

/-- C2 counterexample: InvalidToken and MissingCredentials are surfaced with
HTTP status 400, not 401 as the claim states. -/
theorem C2_counterexample :
    (authErrorResponse AuthError.InvalidToken).1 = 400
    ∧ (authErrorResponse AuthError.MissingCredentials).1 = 400
    ∧ ((400 : Nat) = 401 → False) :=
  ⟨rfl, rfl, by decide⟩

/-- C2 amended: WrongCredentials and TokenExpired are surfaced as 401,
MissingCredentials and InvalidToken as 400, and TokenCreation as 500. -/
theorem C2_auth_error_statuses :
    (authErrorResponse AuthError.WrongCredentials).1 = 401
    ∧ (authErrorResponse AuthError.TokenExpired).1 = 401
    ∧ (authErrorResponse AuthError.MissingCredentials).1 = 400
    ∧ (authErrorResponse AuthError.InvalidToken).1 = 400
    ∧ (authErrorResponse AuthError.TokenCreation).1 = 500 :=
  ⟨rfl, rfl, rfl, rfl, rfl⟩

/-- C6 counterexample: a correctly signed, structurally valid token with
exp = 0 validated at now = 100 — so exp is strictly before now — is rejected
with InvalidToken rather than TokenExpired: the decode step itself rejects
tokens expired past its 60 second leeway, and validate_token maps every
decode failure to InvalidToken. -/
theorem C6_counterexample :
    validate_token ⟨"s"⟩ 100 (jwtEncode ⟨"s"⟩ ⟨"i", "u", 0⟩)
        = Except.error AuthError.InvalidToken
    ∧ (validate_token ⟨"s"⟩ 100 (jwtEncode ⟨"s"⟩ ⟨"i", "u", 0⟩)
        = Except.error AuthError.TokenExpired → False)
    ∧ (0 : Nat) < 100 := by
  refine ⟨rfl, ?_, by decide⟩
  intro h
  rw [show validate_token ⟨"s"⟩ 100 (jwtEncode ⟨"s"⟩ ⟨"i", "u", 0⟩)
      = Except.error AuthError.InvalidToken from rfl] at h
  exact AuthError.noConfusion (Except.error.inj h)

/-- C10 counterexample: a storage failure in the get-all and get-random paths
is not surfaced as a handled 500 response; the handlers unwrap the store
result with expect and the failure escapes as a panic. -/
theorem C10_counterexample :
    api_get_all_quotes (Except.error ⟨"boom"⟩)
        = Outcome.panicked "Failed to get quotes"
    ∧ api_get_random_quote (Except.error ⟨"boom"⟩)
        = Outcome.panicked "Failed to get random quote"
    ∧ (∀ r, api_get_all_quotes (Except.error ⟨"boom"⟩) ≠ Outcome.response r) :=
  ⟨rfl, rfl, fun _ h => Outcome.noConfusion h⟩

/-- C3 counterexample: creating a quote with raw tags b then a stores the tag
rows in that insertion order, and get_quote_by_id then returns the names in
stored order — b before a, not ascending — although a sorts strictly before
b; only the projection returned directly by create is sorted. -/
theorem C3_counterexample :
    (get_quote_by_id (create_quote ⟨[], [], 1, 1⟩ 7 ⟨"q", "s", some ["b", "a"]⟩).1 1).map
        (fun q => q.tags) = some ["b", "a"]
    ∧ (create_quote ⟨[], [], 1, 1⟩ 7 ⟨"q", "s", some ["b", "a"]⟩).2.tags = ["a", "b"]
    ∧ strLeRel "a" "b"
    ∧ ¬ strLeRel "b" "a" := by decide

/-- C1: update_quote issues its statements with no bracketing transaction;
after the tag delete and before the tag insert the store holds the quote with
its new text and an empty tag set — neither the old tag set nor the new one —
so the quote-plus-tags replacement is observably not atomic. The mid state
below is the one a crash or a concurrent reader exposes after the first two
statements of update_quote for id 1 with new text and tags y, on a store
where quote 1 has tag set x. -/
theorem C1_update_not_atomic :
    (tagRowsFor (⟨[⟨1, "old", "src", 0, 0⟩], [⟨1, 1, "x", 0, 0⟩], 2, 2⟩ : Db) 1).map
        (fun t => t.name) = ["x"]
    ∧ (tagRowsFor
        (runStmts ⟨[⟨1, "old", "src", 0, 0⟩], [⟨1, 1, "x", 0, 0⟩], 2, 2⟩
          ((updateStmtList 1 ⟨"new", "src", some ["y"]⟩ 5).take 2)) 1).map
        (fun t => t.name) = []
    ∧ (tagRowsFor
        (update_quote ⟨[⟨1, "old", "src", 0, 0⟩], [⟨1, 1, "x", 0, 0⟩], 2, 2⟩ 5 1
          ⟨"new", "src", some ["y"]⟩).1 1).map (fun t => t.name) = ["y"]
    ∧ (findQuoteRow
        (runStmts ⟨[⟨1, "old", "src", 0, 0⟩], [⟨1, 1, "x", 0, 0⟩], 2, 2⟩
          ((updateStmtList 1 ⟨"new", "src", some ["y"]⟩ 5).take 2)) 1).map
        (fun r => r.quote) = some "new" := by decide

/-- Evaluation of validate_token on a correctly signed token. -/
theorem validate_token_signed_valid (key : Secret) (now : Nat) (payload : Claims) :
    validate_token key now (Token.signed payload key payload)
      = (if payload.exp < now - jwtLeeway then Except.error AuthError.InvalidToken
         else if payload.exp < now then Except.error AuthError.TokenExpired
         else Except.ok payload) := by
  unfold validate_token jwtDecode
  simp only [and_self, if_true]
  by_cases h1 : payload.exp < now - jwtLeeway
  · simp [h1]
  · simp [h1]

/-- Evaluation of validate_token on a token whose signature does not verify. -/
theorem validate_token_signed_invalid (key : Secret) (now : Nat)
    (payload : Claims) (k : Secret) (p : Claims) (h : ¬ (k = key ∧ p = payload)) :
    validate_token key now (Token.signed payload k p)
      = Except.error AuthError.InvalidToken := by
  simp [validate_token, jwtDecode, h]

/-- Evaluation of validate_token on unparsable input. -/
theorem validate_token_garbage (key : Secret) (now : Nat) (s : String) :
    validate_token key now (Token.garbage s) = Except.error AuthError.InvalidToken := rfl

/-- C6 amended: validate_token accepts exactly the correctly signed tokens
with exp at or after now (in particular exp = now is accepted); it fails with
TokenExpired exactly for correctly signed tokens whose exp lies in the decode
leeway window now - 60 ≤ exp < now; every other case — malformed structure, a
signature that does not verify, or exp more than the 60 second decode leeway
before now — fails with InvalidToken. -/
theorem C6_validate_token_cases (key : Secret) (now : Nat) (t : Token) :
    (∀ c, validate_token key now t = Except.ok c
        ↔ (t = Token.signed c key c ∧ now ≤ c.exp))
    ∧ (validate_token key now t = Except.error AuthError.TokenExpired
        ↔ (∃ c, t = Token.signed c key c ∧ now - jwtLeeway ≤ c.exp ∧ c.exp < now))
    ∧ (validate_token key now t = Except.error AuthError.InvalidToken
        ↔ ((∀ c, t ≠ Token.signed c key c)
            ∨ (∃ c, t = Token.signed c key c ∧ c.exp < now - jwtLeeway))) := by
  cases t with
  | garbage s =>
    refine ⟨fun c => ?_, ?_, ?_⟩
    · rw [validate_token_garbage]
      constructor
      · intro h; exact Except.noConfusion h
      · rintro ⟨h, _⟩; exact Token.noConfusion h
    · rw [validate_token_garbage]
      constructor
      · intro h; exact AuthError.noConfusion (Except.error.inj h)
      · rintro ⟨c, h, _⟩; exact Token.noConfusion h
    · rw [validate_token_garbage]
      constructor
      · intro _; exact Or.inl (fun c h => Token.noConfusion h)
      · intro _; rfl
  | signed payload k p =>
    by_cases hsig : k = key ∧ p = payload
    · obtain ⟨hk, hp⟩ := hsig
      rw [hk, hp]
      by_cases h1 : payload.exp < now - jwtLeeway
      · have hv : validate_token key now (Token.signed payload key payload)
            = Except.error AuthError.InvalidToken := by
          rw [validate_token_signed_valid, if_pos h1]
        refine ⟨fun c => ?_, ?_, ?_⟩
        · rw [hv]
          constructor
          · intro h; exact Except.noConfusion h
          · rintro ⟨heq, hle⟩
            injection heq with e1 e2 e3
            subst e1
            omega
        · rw [hv]
          constructor
          · intro h; exact AuthError.noConfusion (Except.error.inj h)
          · rintro ⟨c, heq, hge, hlt⟩
            injection heq with e1 e2 e3
            subst e1
            omega
        · rw [hv]
          constructor
          · intro _; exact Or.inr ⟨payload, rfl, h1⟩
          · intro _; rfl
      · by_cases h2 : payload.exp < now
        · have hv : validate_token key now (Token.signed payload key payload)
              = Except.error AuthError.TokenExpired := by
            rw [validate_token_signed_valid, if_neg h1, if_pos h2]
          refine ⟨fun c => ?_, ?_, ?_⟩
          · rw [hv]
            constructor
            · intro h; exact Except.noConfusion h
            · rintro ⟨heq, hle⟩
              injection heq with e1 e2 e3
              subst e1
              omega
          · rw [hv]
            constructor
            · intro _; exact ⟨payload, rfl, by omega, h2⟩
            · intro _; rfl
          · rw [hv]
            constructor
            · intro h; exact AuthError.noConfusion (Except.error.inj h)
            · rintro (hall | ⟨c, heq, hlt⟩)
              · exact absurd rfl (hall payload)
              · injection heq with e1 e2 e3
                subst e1
                omega
        · have hv : validate_token key now (Token.signed payload key payload)
              = Except.ok payload := by
            rw [validate_token_signed_valid, if_neg h1, if_neg h2]
          refine ⟨fun c => ?_, ?_, ?_⟩
          · rw [hv]
            constructor
            · intro h
              have hcp : payload = c := Except.ok.inj h
              subst hcp
              exact ⟨rfl, by omega⟩
            · rintro ⟨heq, hle⟩
              injection heq with e1 e2 e3
              exact congrArg Except.ok e1
          · rw [hv]
            constructor
            · intro h; exact Except.noConfusion h
            · rintro ⟨c, heq, hge, hlt⟩
              injection heq with e1 e2 e3
              subst e1
              omega
          · rw [hv]
            constructor
            · intro h; exact Except.noConfusion h
            · rintro (hall | ⟨c, heq, hlt⟩)
              · exact absurd rfl (hall payload)
              · injection heq with e1 e2 e3
                subst e1
                omega
    · have hv := validate_token_signed_invalid key now payload k p hsig
      refine ⟨fun c => ?_, ?_, ?_⟩
      · rw [hv]
        constructor
        · intro h; exact Except.noConfusion h
        · rintro ⟨heq, _⟩
          injection heq with e1 e2 e3
          exact absurd ⟨e2, by rw [e3, ← e1]⟩ hsig
      · rw [hv]
        constructor
        · intro h; exact AuthError.noConfusion (Except.error.inj h)
        · rintro ⟨c, heq, _, _⟩
          injection heq with e1 e2 e3
          exact absurd ⟨e2, by rw [e3, ← e1]⟩ hsig
      · rw [hv]
        constructor
        · intro _
          left
          intro c heq
          injection heq with e1 e2 e3
          exact hsig ⟨e2, by rw [e3, ← e1]⟩
        · intro _; rfl

/-- Evaluation of validate_token on a token this service encoded, with the
claim fields spelled out. -/
theorem validate_token_encode (key : Secret) (check : Nat) (iss sub : String)
    (e : Nat) :
    validate_token key check (jwtEncode key ⟨iss, sub, e⟩)
      = (if e < check - jwtLeeway then Except.error AuthError.InvalidToken
         else if e < check then Except.error AuthError.TokenExpired
         else Except.ok ⟨iss, sub, e⟩) := by
  simp only [jwtEncode]
  rw [validate_token_signed_valid]

/-- C9: with the correct registration secret, Issue returns a Bearer token
whose claim set expires at issue time + 24 hours; Validate accepts it
immediately and rejects it at every instant strictly after expiry; with a
wrong password Issue fails with WrongCredentials and issues nothing; and a
token signed over a different payload or with a different key is rejected
with InvalidToken. -/
theorem C9_token_lifecycle (key : Secret) (reg_key : String) (now : Nat)
    (r bad : Registration) (hok : r.password = reg_key)
    (hbad : bad.password ≠ reg_key) :
    ∃ body, make_jwt_token key reg_key now r = Except.ok body
      ∧ body.token_type = "Bearer"
      ∧ (∃ c, body.access_token = jwtEncode key c
          ∧ c.exp = now + 86400
          ∧ validate_token key now body.access_token = Except.ok c
          ∧ ∀ later, now + 86400 < later →
              ∀ c2, validate_token key later body.access_token ≠ Except.ok c2)
      ∧ make_jwt_token key reg_key now bad = Except.error AuthError.WrongCredentials
      ∧ (∀ c2 k2 p2, ¬ (k2 = key ∧ p2 = c2) →
          validate_token key now (Token.signed c2 k2 p2)
            = Except.error AuthError.InvalidToken) := by
  refine ⟨{ access_token := jwtEncode key
              ⟨"quote-server.localhost", r.full_name ++ " <" ++ r.email ++ ">",
               now + 86400⟩
            token_type := "Bearer" }, ?_, rfl, ?_, ?_, ?_⟩
  · simp [make_jwt_token, hok]
  · refine ⟨⟨"quote-server.localhost", r.full_name ++ " <" ++ r.email ++ ">",
      now + 86400⟩, rfl, rfl, ?_, ?_⟩
    · rw [validate_token_encode, if_neg (by omega), if_neg (by omega)]
    · intro later hlater c2
      rw [validate_token_encode]
      by_cases hl : now + 86400 < later - jwtLeeway
      · rw [if_pos hl]
        exact fun h => Except.noConfusion h
      · rw [if_neg hl, if_pos (by omega)]
        exact fun h => Except.noConfusion h
  · simp [make_jwt_token, hbad]
  · intro c2 k2 p2 hne
    exact validate_token_signed_invalid key now c2 k2 p2 hne

/-- Witness for C9 at concrete inputs: key k, registration secret r, issue
time 0, one registration with the right password and one with a wrong one. -/
theorem C9_token_lifecycle_witness :
    ∃ body, make_jwt_token ⟨"k"⟩ "r" 0 ⟨"n", "e", "r"⟩ = Except.ok body
      ∧ body.token_type = "Bearer"
      ∧ (∃ c, body.access_token = jwtEncode ⟨"k"⟩ c
          ∧ c.exp = 0 + 86400
          ∧ validate_token ⟨"k"⟩ 0 body.access_token = Except.ok c
          ∧ ∀ later, 0 + 86400 < later →
              ∀ c2, validate_token ⟨"k"⟩ later body.access_token ≠ Except.ok c2)
      ∧ make_jwt_token ⟨"k"⟩ "r" 0 ⟨"n", "e", "x"⟩
          = Except.error AuthError.WrongCredentials
      ∧ (∀ c2 k2 p2, ¬ (k2 = ⟨"k"⟩ ∧ p2 = c2) →
          validate_token ⟨"k"⟩ 0 (Token.signed c2 k2 p2)
            = Except.error AuthError.InvalidToken) :=
  C9_token_lifecycle ⟨"k"⟩ "r" 0 ⟨"n", "e", "r"⟩ ⟨"n", "e", "x"⟩ rfl (by decide)

/-- find? over an append when the prefix already hits. -/
theorem find?_append_left {α : Type} {p : α → Bool} {l1 : List α} (l2 : List α)
    {a : α} (h : l1.find? p = some a) : (l1 ++ l2).find? p = some a := by
  induction l1 with
  | nil => simp [List.find?] at h
  | cons x xs ih =>
    cases hx : p x with
    | true =>
      rw [List.find?_cons_of_pos _ hx] at h
      rw [List.cons_append, List.find?_cons_of_pos _ hx]
      exact h
    | false =>
      rw [List.find?_cons_of_neg _ (by simp [hx])] at h
      rw [List.cons_append, List.find?_cons_of_neg _ (by simp [hx])]
      exact ih h

/-- find? over an append when the prefix misses. -/
theorem find?_append_right {α : Type} {p : α → Bool} {l1 : List α} (l2 : List α)
    (h : l1.find? p = none) : (l1 ++ l2).find? p = l2.find? p := by
  induction l1 with
  | nil => rfl
  | cons x xs ih =>
    cases hx : p x with
    | true =>
      rw [List.find?_cons_of_pos _ hx] at h
      exact Option.noConfusion h
    | false =>
      rw [List.find?_cons_of_neg _ (by simp [hx])] at h
      rw [List.cons_append, List.find?_cons_of_neg _ (by simp [hx])]
      exact ih h

/-- find? over a map by an id-preserving row function. -/
theorem find?_map_of_id (l : List QuoteRow) (qid : Int) (f : QuoteRow → QuoteRow)
    (hid : ∀ r, (f r).id = r.id) :
    (l.map f).find? (fun r => r.id = qid)
      = (l.find? (fun r => r.id = qid)).map f := by
  rw [List.find?_map]
  have hp : ((fun r => decide (r.id = qid)) ∘ f)
      = (fun (r : QuoteRow) => decide (r.id = qid)) := by
    funext r
    simp [Function.comp, hid]
  rw [hp]

/-- Effect of the quote row update on the row lookup. -/
theorem findQuoteRow_updateQuoteRow (db : Db) (qid : Int) (q s : String)
    (now : Nat) (q0 : QuoteRow) (h : findQuoteRow db qid = some q0) :
    findQuoteRow (updateQuoteRow db qid q s now) qid
      = some { q0 with quote := q, source := s, updated_at := now } := by
  have hid : q0.id = qid := by simpa using List.find?_some h
  unfold findQuoteRow updateQuoteRow
  rw [find?_map_of_id _ qid _ (fun r => by by_cases hr : r.id = qid <;> simp [hr])]
  unfold findQuoteRow at h
  rw [h]
  simp [hid]

/-- Rows kept by the complementary filter never match the id filter. -/
theorem filter_eq_of_filter_ne (l : List TagRow) (qid : Int) :
    (l.filter (fun r => ¬ r.quote_id = qid)).filter (fun r => r.quote_id = qid)
      = [] := by
  induction l with
  | nil => rfl
  | cons a l ih =>
    by_cases h : a.quote_id = qid
    · simp only [List.filter_cons]
      simp [h, ih]
    · simp only [List.filter_cons]
      simp [h, ih]

/-- After the cascade delete the quote row lookup misses. -/
theorem findQuoteRow_deleteQuoteRowCascade (db : Db) (qid : Int) :
    findQuoteRow (deleteQuoteRowCascade db qid) qid = none := by
  unfold findQuoteRow deleteQuoteRowCascade
  rw [List.find?_eq_none]
  intro x hx
  have hmem := List.mem_filter.mp hx
  simpa using hmem.2

/-- Running mapped tag-insert statements is the tag-insert fold. -/
theorem runStmts_map_insert (names : List String) (qid : Int) (now : Nat)
    (db : Db) :
    runStmts db (names.map (fun t => fun d => insertTagRow d qid t now))
      = names.foldl (fun d t => insertTagRow d qid t now) db := by
  induction names generalizing db with
  | nil => rfl
  | cons n ns ih =>
    simp only [List.map_cons, runStmts, List.foldl_cons]
    exact ih (insertTagRow db qid n now)

/-- Effect of the tag-insert fold on the store: quotes and the quote counter
are untouched and the rows for the target quote gain exactly the inserted
names, in order. -/
theorem foldl_insertTagRow_spec (names : List String) (db : Db) (qid : Int)
    (now : Nat) :
    (names.foldl (fun d t => insertTagRow d qid t now) db).quotes = db.quotes
    ∧ (names.foldl (fun d t => insertTagRow d qid t now) db).nextQuoteId
        = db.nextQuoteId
    ∧ ((names.foldl (fun d t => insertTagRow d qid t now) db).tags.filter
          (fun r => r.quote_id = qid)).map (fun t => t.name)
        = (db.tags.filter (fun r => r.quote_id = qid)).map (fun t => t.name)
            ++ names := by
  induction names generalizing db with
  | nil => exact ⟨rfl, rfl, by simp⟩
  | cons n ns ih =>
    obtain ⟨h1, h2, h3⟩ := ih (insertTagRow db qid n now)
    simp only [List.foldl_cons]
    refine ⟨h1, h2, ?_⟩
    rw [h3]
    rw [show (insertTagRow db qid n now).tags
        = db.tags ++ [⟨db.nextTagId, qid, n, now, now⟩] from rfl]
    simp [List.filter_append, List.filter_cons]

/-- Statement list of update_quote when the request carries no tags. -/
theorem updateStmtList_none (qid : Int) (request : UpdateQuoteRequest)
    (now : Nat) (h : request.tags = none) :
    updateStmtList qid request now
      = [fun db => updateQuoteRow db qid request.quote request.source now,
         fun db => deleteTagRows db qid] := by
  unfold updateStmtList
  rw [h]

/-- Statement list of update_quote when the request carries tags. -/
theorem updateStmtList_some (qid : Int) (request : UpdateQuoteRequest)
    (now : Nat) (rawTags : List String) (h : request.tags = some rawTags) :
    updateStmtList qid request now
      = (fun db => updateQuoteRow db qid request.quote request.source now)
        :: (fun db => deleteTagRows db qid)
        :: (uniqueTagList rawTags).map (fun t => fun db => insertTagRow db qid t now) := by
  unfold updateStmtList
  rw [h]

/-- C5: update on an existing id preserves the original created_at, stamps
updated_at with the update time, and fully replaces the tag set: a subsequent
GetById reports exactly the new normalized tags (as a set — the read path
reports stored order), never a mix with the old ones; update on an absent id
returns none and leaves the store unchanged. -/
theorem C5_update_semantics (db : Db) (now : Nat) (qid : Int)
    (request : UpdateQuoteRequest) :
    (findQuoteRow db qid = none → update_quote db now qid request = (db, none))
    ∧ (∀ q0, findQuoteRow db qid = some q0 →
        ∃ res, (update_quote db now qid request).2 = some res
          ∧ res.created_at = q0.created_at
          ∧ res.updated_at = now
          ∧ res.tags = normalizeTags (request.tags.getD [])
          ∧ ∃ q, get_quote_by_id (update_quote db now qid request).1 qid = some q
              ∧ q.tags.Perm (normalizeTags (request.tags.getD []))
              ∧ q.created_at = q0.created_at
              ∧ q.updated_at = now
              ∧ q.quote = request.quote ∧ q.source = request.source) := by
  constructor
  · intro h
    unfold update_quote
    rw [h]
  · intro q0 h
    have h' : db.quotes.find? (fun r => r.id = qid) = some q0 := h
    have hid : q0.id = qid := by simpa using List.find?_some h'
    cases hreq : request.tags with
    | none =>
      have heq : update_quote db now qid request
          = (deleteTagRows (updateQuoteRow db qid request.quote request.source now) qid,
             some ⟨qid, request.quote, request.source, q0.created_at, now, []⟩) := by
        unfold update_quote
        rw [h, hreq, updateStmtList_none qid request now hreq]
        rfl
      have hfst : (update_quote db now qid request).1
          = deleteTagRows (updateQuoteRow db qid request.quote request.source now) qid := by
        rw [heq]
      have hsnd : (update_quote db now qid request).2
          = some ⟨qid, request.quote, request.source, q0.created_at, now, []⟩ := by
        rw [heq]
      have hfind : findQuoteRow
          (deleteTagRows (updateQuoteRow db qid request.quote request.source now) qid) qid
          = some { q0 with quote := request.quote, source := request.source, updated_at := now } :=
        findQuoteRow_updateQuoteRow db qid request.quote request.source now q0 h
      have htags : tagRowsFor
          (deleteTagRows (updateQuoteRow db qid request.quote request.source now) qid) qid
          = [] := by
        unfold tagRowsFor deleteTagRows
        exact filter_eq_of_filter_ne _ qid
      refine ⟨_, hsnd, rfl, rfl, rfl, ?_⟩
      refine ⟨⟨qid, request.quote, request.source, q0.created_at, now, []⟩,
        ?_, List.Perm.nil, rfl, rfl, rfl, rfl⟩
      rw [hfst]
      unfold get_quote_by_id
      rw [hfind]
      simp [hid, htags]
    | some rawTags =>
      have heq : update_quote db now qid request
          = ((uniqueTagList rawTags).foldl (fun d t => insertTagRow d qid t now)
               (deleteTagRows (updateQuoteRow db qid request.quote request.source now) qid),
             some ⟨qid, request.quote, request.source, q0.created_at, now,
                   normalizeTags rawTags⟩) := by
        unfold update_quote
        rw [h, hreq, updateStmtList_some qid request now rawTags hreq]
        rw [show runStmts db
              ((fun db => updateQuoteRow db qid request.quote request.source now)
               :: (fun db => deleteTagRows db qid)
               :: (uniqueTagList rawTags).map (fun t => fun db => insertTagRow db qid t now))
            = runStmts
                (deleteTagRows (updateQuoteRow db qid request.quote request.source now) qid)
                ((uniqueTagList rawTags).map (fun t => fun db => insertTagRow db qid t now))
          from rfl]
        rw [runStmts_map_insert]
      have hfst : (update_quote db now qid request).1
          = (uniqueTagList rawTags).foldl (fun d t => insertTagRow d qid t now)
              (deleteTagRows (updateQuoteRow db qid request.quote request.source now) qid) := by
        rw [heq]
      have hsnd : (update_quote db now qid request).2
          = some ⟨qid, request.quote, request.source, q0.created_at, now,
                  normalizeTags rawTags⟩ := by
        rw [heq]
      obtain ⟨hq1, _, hq3⟩ := foldl_insertTagRow_spec (uniqueTagList rawTags)
        (deleteTagRows (updateQuoteRow db qid request.quote request.source now) qid) qid now
      have hfind : findQuoteRow
          ((uniqueTagList rawTags).foldl (fun d t => insertTagRow d qid t now)
            (deleteTagRows (updateQuoteRow db qid request.quote request.source now) qid)) qid
          = some { q0 with quote := request.quote, source := request.source, updated_at := now } := by
        unfold findQuoteRow
        rw [hq1]
        exact findQuoteRow_updateQuoteRow db qid request.quote request.source now q0 h
      have htagsD : tagRowsFor
          (deleteTagRows (updateQuoteRow db qid request.quote request.source now) qid) qid
          = [] := by
        unfold tagRowsFor deleteTagRows
        exact filter_eq_of_filter_ne _ qid
      have htags : (tagRowsFor
          ((uniqueTagList rawTags).foldl (fun d t => insertTagRow d qid t now)
            (deleteTagRows (updateQuoteRow db qid request.quote request.source now) qid))
          qid).map (fun t => t.name) = uniqueTagList rawTags := by
        unfold tagRowsFor
        rw [hq3]
        rw [show (deleteTagRows (updateQuoteRow db qid request.quote request.source now)
            qid).tags.filter (fun r => r.quote_id = qid) = [] from htagsD]
        rfl
      refine ⟨_, hsnd, rfl, rfl, rfl, ?_⟩
      refine ⟨⟨qid, request.quote, request.source, q0.created_at, now,
        uniqueTagList rawTags⟩, ?_,
        (List.perm_insertionSort strLeRel (uniqueTagList rawTags)).symm,
        rfl, rfl, rfl, rfl⟩
      rw [hfst]
      unfold get_quote_by_id
      rw [hfind]
      simp [hid, htags]

/-- C8: delete_quote returns true exactly when a quote with the id exists;
when it returns false the store is unchanged; after a successful delete no
tag row referencing the id remains and get_quote_by_id returns none. -/
theorem C8_delete_semantics (db : Db) (qid : Int) :
    ((delete_quote db qid).2 = true ↔ ∃ r ∈ db.quotes, r.id = qid)
    ∧ ((delete_quote db qid).2 = false → (delete_quote db qid).1 = db)
    ∧ ((delete_quote db qid).2 = true →
        tagRowsFor (delete_quote db qid).1 qid = []
        ∧ get_quote_by_id (delete_quote db qid).1 qid = none) := by
  cases hf : findQuoteRow db qid with
  | none =>
    have hf' : db.quotes.find? (fun r => r.id = qid) = none := hf
    have hres : delete_quote db qid = (db, false) := by
      unfold delete_quote
      rw [hf]
    rw [hres]
    refine ⟨?_, fun _ => rfl, ?_⟩
    · constructor
      · intro hcon; exact absurd hcon (by simp)
      · rintro ⟨r, hr, hrid⟩
        have := List.find?_eq_none.mp hf' r hr
        simp [hrid] at this
    · intro hcon; exact absurd hcon (by simp)
  | some q0 =>
    have hf' : db.quotes.find? (fun r => r.id = qid) = some q0 := hf
    have hmem : q0 ∈ db.quotes := List.mem_of_find?_eq_some hf'
    have hid : q0.id = qid := by simpa using List.find?_some hf'
    have hres : delete_quote db qid = (deleteQuoteRowCascade db qid, true) := by
      unfold delete_quote
      rw [hf]
      have hmemf : q0 ∈ db.quotes.filter (fun r => r.id = qid) :=
        List.mem_filter.mpr ⟨hmem, by simp [hid]⟩
      have hlen : 0 < (db.quotes.filter (fun r => r.id = qid)).length :=
        List.length_pos.mpr (List.ne_nil_of_mem hmemf)
      simp [hlen]
    rw [hres]
    refine ⟨⟨fun _ => ⟨q0, hmem, hid⟩, fun _ => rfl⟩, ?_, ?_⟩
    · intro hcon; exact absurd hcon (by simp)
    · intro _
      constructor
      · unfold tagRowsFor deleteQuoteRowCascade
        exact filter_eq_of_filter_ne db.tags qid
      · unfold get_quote_by_id
        rw [findQuoteRow_deleteQuoteRowCascade]

/-- C3 amended: for a store whose next rowid is fresh (true of every state
the store itself produces), GetById after a create reports the created
quote's tag set completely and exactly — its tag list is a permutation of the
sorted list create returned — but in stored row order: the GetById read path
applies no sort. -/
theorem C3_get_by_id_reports_tag_set (db : Db) (now : Nat)
    (request : CreateQuoteRequest)
    (hfreshq : ∀ r ∈ db.quotes, r.id ≠ db.nextQuoteId)
    (hfresht : ∀ t ∈ db.tags, t.quote_id ≠ db.nextQuoteId) :
    ∃ q, get_quote_by_id (create_quote db now request).1
          (create_quote db now request).2.id = some q
      ∧ q.tags.Perm (create_quote db now request).2.tags
      ∧ (create_quote db now request).2.tags = normalizeTags (request.tags.getD [])
      ∧ q.quote = request.quote ∧ q.source = request.source
      ∧ q.created_at = now ∧ q.updated_at = now := by
  have hfq : db.quotes.find? (fun r => r.id = db.nextQuoteId) = none :=
    List.find?_eq_none.mpr (fun x hx => by simpa using hfreshq x hx)
  have htagsN : db.tags.filter (fun r => r.quote_id = db.nextQuoteId) = [] :=
    List.filter_eq_nil_iff.mpr (fun x hx => by simpa using hfresht x hx)
  cases hreq : request.tags with
  | none =>
    have heq : create_quote db now request
        = (⟨db.quotes ++ [⟨db.nextQuoteId, request.quote, request.source, now, now⟩],
            db.tags, db.nextQuoteId + 1, db.nextTagId⟩,
           ⟨db.nextQuoteId, request.quote, request.source, now, now, []⟩) := by
      unfold create_quote insertQuoteRow
      rw [hreq]
    have hfind : findQuoteRow
        (⟨db.quotes ++ [⟨db.nextQuoteId, request.quote, request.source, now, now⟩],
          db.tags, db.nextQuoteId + 1, db.nextTagId⟩ : Db) db.nextQuoteId
        = some ⟨db.nextQuoteId, request.quote, request.source, now, now⟩ := by
      unfold findQuoteRow
      show (db.quotes ++ ([⟨db.nextQuoteId, request.quote, request.source, now, now⟩] : List QuoteRow)).find?
          (fun r => r.id = db.nextQuoteId)
          = some ⟨db.nextQuoteId, request.quote, request.source, now, now⟩
      rw [find?_append_right _ hfq, List.find?_cons_of_pos _ (by simp)]
    refine ⟨⟨db.nextQuoteId, request.quote, request.source, now, now, []⟩,
      ?_, ?_, ?_, rfl, rfl, rfl, rfl⟩
    · rw [heq]
      show get_quote_by_id
        (⟨db.quotes ++ [⟨db.nextQuoteId, request.quote, request.source, now, now⟩],
          db.tags, db.nextQuoteId + 1, db.nextTagId⟩ : Db) db.nextQuoteId = _
      unfold get_quote_by_id
      rw [hfind]
      simp [tagRowsFor, htagsN]
    · rw [heq]
    · rw [heq]
      rfl
  | some rawTags =>
    have heq : create_quote db now request
        = ((uniqueTagList rawTags).foldl
             (fun d t => insertTagRow d db.nextQuoteId t now)
             ⟨db.quotes ++ [⟨db.nextQuoteId, request.quote, request.source, now, now⟩],
              db.tags, db.nextQuoteId + 1, db.nextTagId⟩,
           ⟨db.nextQuoteId, request.quote, request.source, now, now,
            (uniqueTagList rawTags).insertionSort strLeRel⟩) := by
      unfold create_quote insertQuoteRow
      rw [hreq]
    obtain ⟨hq1, _, hq3⟩ := foldl_insertTagRow_spec (uniqueTagList rawTags)
      ⟨db.quotes ++ [⟨db.nextQuoteId, request.quote, request.source, now, now⟩],
       db.tags, db.nextQuoteId + 1, db.nextTagId⟩ db.nextQuoteId now
    have hfind : findQuoteRow
        ((uniqueTagList rawTags).foldl (fun d t => insertTagRow d db.nextQuoteId t now)
          ⟨db.quotes ++ [⟨db.nextQuoteId, request.quote, request.source, now, now⟩],
           db.tags, db.nextQuoteId + 1, db.nextTagId⟩) db.nextQuoteId
        = some ⟨db.nextQuoteId, request.quote, request.source, now, now⟩ := by
      unfold findQuoteRow
      rw [hq1]
      show (db.quotes ++ ([⟨db.nextQuoteId, request.quote, request.source, now, now⟩] : List QuoteRow)).find?
          (fun r => r.id = db.nextQuoteId)
          = some ⟨db.nextQuoteId, request.quote, request.source, now, now⟩
      rw [find?_append_right _ hfq, List.find?_cons_of_pos _ (by simp)]
    have htagsF : (tagRowsFor
        ((uniqueTagList rawTags).foldl (fun d t => insertTagRow d db.nextQuoteId t now)
          ⟨db.quotes ++ [⟨db.nextQuoteId, request.quote, request.source, now, now⟩],
           db.tags, db.nextQuoteId + 1, db.nextTagId⟩) db.nextQuoteId).map
        (fun t => t.name) = uniqueTagList rawTags := by
      unfold tagRowsFor
      rw [hq3]
      show (db.tags.filter (fun r => r.quote_id = db.nextQuoteId)).map (fun t => t.name)
          ++ uniqueTagList rawTags = _
      rw [htagsN]
      rfl
    refine ⟨⟨db.nextQuoteId, request.quote, request.source, now, now,
      uniqueTagList rawTags⟩, ?_, ?_, ?_, rfl, rfl, rfl, rfl⟩
    · rw [heq]
      show get_quote_by_id
        ((uniqueTagList rawTags).foldl (fun d t => insertTagRow d db.nextQuoteId t now)
          ⟨db.quotes ++ [⟨db.nextQuoteId, request.quote, request.source, now, now⟩],
           db.tags, db.nextQuoteId + 1, db.nextTagId⟩) db.nextQuoteId = _
      unfold get_quote_by_id
      rw [hfind]
      simp [htagsF]
    · rw [heq]
      exact (List.perm_insertionSort strLeRel (uniqueTagList rawTags)).symm
    · rw [heq]
      rfl

/-- Witness for the amended C3 at a concrete store and request. -/
theorem C3_get_by_id_reports_tag_set_witness :
    ∃ q, get_quote_by_id (create_quote ⟨[], [], 1, 1⟩ 7 ⟨"q", "s", some ["b", "a"]⟩).1
          (create_quote ⟨[], [], 1, 1⟩ 7 ⟨"q", "s", some ["b", "a"]⟩).2.id = some q
      ∧ q.tags.Perm (create_quote ⟨[], [], 1, 1⟩ 7 ⟨"q", "s", some ["b", "a"]⟩).2.tags
      ∧ (create_quote ⟨[], [], 1, 1⟩ 7 ⟨"q", "s", some ["b", "a"]⟩).2.tags
          = normalizeTags ((some ["b", "a"]).getD [])
      ∧ q.quote = "q" ∧ q.source = "s"
      ∧ q.created_at = 7 ∧ q.updated_at = 7 :=
  C3_get_by_id_reports_tag_set ⟨[], [], 1, 1⟩ 7 ⟨"q", "s", some ["b", "a"]⟩
    (by simp) (by simp)

/-- C7: each mutating handler runs the Claims extractor before touching the
store: when extraction fails, the handler returns the extractor's error
response and the store state comes back unchanged. The read handlers
(get_quote_by_id, api_get_all_quotes, api_get_random_quote) take no
credential input at all. -/
theorem C7_mutation_gate (header : Option AuthHeader) (keys : Option Secret)
    (now : Nat) (db : Db) (fault : Option DbError)
    (creq : CreateQuoteRequest) (ureq : UpdateQuoteRequest) (id : Int)
    (e : AuthError)
    (hreject : from_request_parts header keys now = Except.error e) :
    api_create_quote header keys now db fault creq
        = (db, ApiResult.failure (authErrorResponse e).1 (authErrorResponse e).2)
    ∧ api_update_quote header keys now db fault id ureq
        = (db, ApiResult.failure (authErrorResponse e).1 (authErrorResponse e).2)
    ∧ api_delete_quote header keys now db fault id
        = (db, ApiResult.failure (authErrorResponse e).1 (authErrorResponse e).2) := by
  unfold api_create_quote api_update_quote api_delete_quote
  rw [hreject]
  exact ⟨rfl, rfl, rfl⟩

/-- Witness for C7: a request with no Authorization header is rejected with
the MissingCredentials response and the store is unchanged. -/
theorem C7_mutation_gate_witness :
    api_create_quote none none 0 ⟨[], [], 1, 1⟩ none ⟨"q", "s", none⟩
        = (⟨[], [], 1, 1⟩, ApiResult.failure 400 "Missing credentials")
    ∧ api_update_quote none none 0 ⟨[], [], 1, 1⟩ none 1 ⟨"q", "s", none⟩
        = (⟨[], [], 1, 1⟩, ApiResult.failure 400 "Missing credentials")
    ∧ api_delete_quote none none 0 ⟨[], [], 1, 1⟩ none 1
        = (⟨[], [], 1, 1⟩, ApiResult.failure 400 "Missing credentials") :=
  C7_mutation_gate none none 0 ⟨[], [], 1, 1⟩ none ⟨"q", "s", none⟩
    ⟨"q", "s", none⟩ 1 AuthError.MissingCredentials rfl

/-- C10 amended: storage failures in the GetById, Create, Update and Delete
paths are surfaced as handled, opaque 500 responses whose message does not
depend on the internal error detail; storage failures in the GetAll and
GetRandom paths instead escape the handler as unhandled panics, not
responses. -/
theorem C10_storage_fault_handling (e : DbError) (id : Int)
    (header : Option AuthHeader) (keys : Option Secret) (now : Nat) (db : Db)
    (creq : CreateQuoteRequest) (ureq : UpdateQuoteRequest) (c : Claims)
    (hauth : from_request_parts header keys now = Except.ok c)
    (hq : ¬ trim creq.quote = "") (hs : ¬ trim creq.source = "")
    (huq : ¬ trim ureq.quote = "") (hus : ¬ trim ureq.source = "") :
    api_get_quote_by_id id (Except.error e)
        = ApiResult.failure 500 "Failed to retrieve quote"
    ∧ (api_create_quote header keys now db (some e) creq).2
        = ApiResult.failure 500 "Failed to create quote"
    ∧ (api_update_quote header keys now db (some e) id ureq).2
        = ApiResult.failure 500 "Failed to update quote"
    ∧ (api_delete_quote header keys now db (some e) id).2
        = ApiResult.failure 500 "Failed to delete quote"
    ∧ api_get_all_quotes (Except.error e) = Outcome.panicked "Failed to get quotes"
    ∧ api_get_random_quote (Except.error e)
        = Outcome.panicked "Failed to get random quote" := by
  unfold api_create_quote api_update_quote api_delete_quote
  rw [hauth]
  simp [hq, hs, huq, hus, api_get_quote_by_id, api_get_all_quotes, api_get_random_quote]

/-- Witness for the amended C10 at a concrete authorized request. -/
theorem C10_storage_fault_handling_witness :
    api_get_quote_by_id 1 (Except.error ⟨"io"⟩)
        = ApiResult.failure 500 "Failed to retrieve quote"
    ∧ (api_create_quote (some (AuthHeader.bearer (jwtEncode ⟨"k"⟩ ⟨"i", "u", 5⟩)))
        (some ⟨"k"⟩) 0 ⟨[], [], 1, 1⟩ (some ⟨"io"⟩) ⟨"q", "s", none⟩).2
        = ApiResult.failure 500 "Failed to create quote"
    ∧ (api_update_quote (some (AuthHeader.bearer (jwtEncode ⟨"k"⟩ ⟨"i", "u", 5⟩)))
        (some ⟨"k"⟩) 0 ⟨[], [], 1, 1⟩ (some ⟨"io"⟩) 1 ⟨"q", "s", none⟩).2
        = ApiResult.failure 500 "Failed to update quote"
    ∧ (api_delete_quote (some (AuthHeader.bearer (jwtEncode ⟨"k"⟩ ⟨"i", "u", 5⟩)))
        (some ⟨"k"⟩) 0 ⟨[], [], 1, 1⟩ (some ⟨"io"⟩) 1).2
        = ApiResult.failure 500 "Failed to delete quote"
    ∧ api_get_all_quotes (Except.error ⟨"io"⟩) = Outcome.panicked "Failed to get quotes"
    ∧ api_get_random_quote (Except.error ⟨"io"⟩)
        = Outcome.panicked "Failed to get random quote" :=
  C10_storage_fault_handling ⟨"io"⟩ 1
    (some (AuthHeader.bearer (jwtEncode ⟨"k"⟩ ⟨"i", "u", 5⟩))) (some ⟨"k"⟩) 0
    ⟨[], [], 1, 1⟩ ⟨"q", "s", none⟩ ⟨"q", "s", none⟩ ⟨"i", "u", 5⟩
    rfl (by decide) (by decide) (by decide) (by decide)

end QuoteServer
